import Mathlib

/-!
Verification development for the BevBot robot control repository.

The definitions below are shallow embeddings of the Python sources:
  * `src/robot/src/routine_system.py`   (actions, routines, interpreter)
  * `src/robot/src/routine_factory.py`  (serialization via ActionFactory/RoutineManager)
  * `src/robot/src/routine_navigator.py` (approach goal resolution)
  * `src/robot/src/aruco_navigation.py` (navigation state machine, precision controller)
  * `src/robot/src/aruco_precision_aligner.py` (PID controller, robust aligner)

Python floats are embedded as rationals (`ℚ`), Python ints as `ℤ` (or `ℕ` for
counters), dictionaries as association lists. Wall-clock polling loops are
condensed to consultations of an oracle at a logical tick counter: each read of
the shared interrupt flag or of the set of visible markers consults the oracle
at the current tick and advances the tick.
-/

/-- Embedding of `np.clip(v, lo, hi)`: `lo` applied first, then `hi`. -/
def npClip (v lo hi : ℚ) : ℚ := min (max v lo) hi

/-- Embedding of enum `MarkerApproach` from `routine_system.py`. -/
inductive MarkerApproach where
  | front
  | back
  | left
  | right
  | custom
deriving DecidableEq, Repr

/-- String value of each `MarkerApproach` member (its `.value` in Python). -/
def MarkerApproach.val : MarkerApproach → String
  | .front => "front"
  | .back => "back"
  | .left => "left"
  | .right => "right"
  | .custom => "custom"

/-- Inverse of `MarkerApproach.val`; `MarkerApproach(s)` in Python, which raises
(here: `none`) on an unknown string. -/
def MarkerApproach.ofVal (s : String) : Option MarkerApproach :=
  if s = "front" then some .front
  else if s = "back" then some .back
  else if s = "left" then some .left
  else if s = "right" then some .right
  else if s = "custom" then some .custom
  else none

/-- Embedding of dataclass `MarkerGoal` from `routine_system.py`. -/
structure MarkerGoal where
  marker_id : ℤ
  approach : MarkerApproach
  distance_cm : ℚ
  angle_degrees : ℚ
  tolerance_cm : ℚ
  tolerance_degrees : ℚ
  timeout : ℚ
  offset_x_cm : ℚ
  offset_y_cm : ℚ
  maintain_orientation : Bool
deriving DecidableEq, Repr

theorem markerApproach_val_ofVal (a : MarkerApproach) :
    MarkerApproach.ofVal a.val = some a := by
  cases a <;> rfl

/-! ### Serialized dictionaries

Python dictionaries/JSON values produced by `ActionFactory.action_to_dict` and
consumed by `ActionFactory.create_action` are embedded as the mutual family
`DVal`/`DList`/`DFields` (values, value lists, key-value field lists). -/

mutual
/-- A Python/JSON value as used by the routine serializer. -/
inductive DVal where
  | str (s : String)
  | num (q : ℚ)
  | int (n : ℤ)
  | bool (b : Bool)
  | list (xs : DList)
  | dict (fs : DFields)
/-- A list of serialized values. -/
inductive DList where
  | nil
  | cons (v : DVal) (rest : DList)
/-- The key-value pairs of a serialized dictionary. -/
inductive DFields where
  | nil
  | cons (k : String) (v : DVal) (rest : DFields)
end

/-- Dictionary lookup, `d[k]` / `d.get(k)` on the embedded field list. -/
def DFields.get : DFields → String → Option DVal
  | .nil, _ => none
  | .cons k v rest, key => if k = key then some v else DFields.get rest key

/-- Expect a string value. -/
def DVal.asStr : DVal → Option String
  | .str s => some s
  | _ => none

/-- Expect a numeric (float) value. -/
def DVal.asNum : DVal → Option ℚ
  | .num q => some q
  | _ => none

/-- Expect an integer value. -/
def DVal.asInt : DVal → Option ℤ
  | .int n => some n
  | _ => none

/-- Expect a boolean value. -/
def DVal.asBool : DVal → Option Bool
  | .bool b => some b
  | _ => none

/-- Expect a list value. -/
def DVal.asList : DVal → Option DList
  | .list xs => some xs
  | _ => none

/-- Expect a dictionary value. -/
def DVal.asDict : DVal → Option DFields
  | .dict fs => some fs
  | _ => none

/-- `params.get(k, default)` for a numeric field. -/
def DFields.getNumD (fs : DFields) (k : String) (d : ℚ) : Option ℚ :=
  match fs.get k with
  | none => some d
  | some v => v.asNum

/-- `params.get(k, default)` for an integer field. -/
def DFields.getIntD (fs : DFields) (k : String) (d : ℤ) : Option ℤ :=
  match fs.get k with
  | none => some d
  | some v => v.asInt

/-- `params.get(k, default)` for a boolean field. -/
def DFields.getBoolD (fs : DFields) (k : String) (d : Bool) : Option Bool :=
  match fs.get k with
  | none => some d
  | some v => v.asBool

/-- `MarkerGoal.to_dict`: `asdict(self)` with the approach replaced by its
string value (field order follows the dataclass declaration). -/
def MarkerGoal.to_dict (g : MarkerGoal) : DVal :=
  .dict (.cons "marker_id" (.int g.marker_id)
    (.cons "approach" (.str g.approach.val)
    (.cons "distance_cm" (.num g.distance_cm)
    (.cons "angle_degrees" (.num g.angle_degrees)
    (.cons "tolerance_cm" (.num g.tolerance_cm)
    (.cons "tolerance_degrees" (.num g.tolerance_degrees)
    (.cons "timeout" (.num g.timeout)
    (.cons "offset_x_cm" (.num g.offset_x_cm)
    (.cons "offset_y_cm" (.num g.offset_y_cm)
    (.cons "maintain_orientation" (.bool g.maintain_orientation) .nil))))))))))

/-- `MarkerGoal.from_dict`: parse the approach string and rebuild the
dataclass, using the dataclass defaults for absent optional fields. -/
def MarkerGoal.from_dict (d : DVal) : Option MarkerGoal := do
  let fs ← d.asDict
  let mid ← (fs.get "marker_id").bind DVal.asInt
  let appStr ← (fs.get "approach").bind DVal.asStr
  let app ← MarkerApproach.ofVal appStr
  let dist ← fs.getNumD "distance_cm" 30
  let ang ← fs.getNumD "angle_degrees" 0
  let tolC ← fs.getNumD "tolerance_cm" 5
  let tolD ← fs.getNumD "tolerance_degrees" 5
  let tmo ← fs.getNumD "timeout" 30
  let offX ← fs.getNumD "offset_x_cm" 0
  let offY ← fs.getNumD "offset_y_cm" 0
  let maint ← fs.getBoolD "maintain_orientation" true
  some ⟨mid, app, dist, ang, tolC, tolD, tmo, offX, offY, maint⟩

theorem markerGoal_from_to_dict (g : MarkerGoal) :
    MarkerGoal.from_dict g.to_dict = some g := by
  cases g with
  | mk mid app dist ang tolC tolD tmo offX offY maint => cases app <;> rfl

/-! ### Actions

The `Action` subclasses of `routine_system.py` form a closed tagged union; the
nested action lists of `ConditionalAction` and `LoopAction` are the mutual
`RActionList` so that all recursion stays structural. -/

mutual
/-- One routine action; constructors carry exactly the constructor parameters
of the corresponding Python `Action` subclass. -/
inductive RAction where
  | MoveAction (left_speed right_speed duration : ℚ) (name : String)
  | TurnAction (angle_degrees speed : ℚ) (name : String)
  | ActuatorAction (action : String) (duration speed : ℚ) (name : String)
  | WaitAction (duration : ℚ) (name : String)
  | NavigateToMarkerAction (goal : MarkerGoal) (name : String)
  | SearchForMarkerAction (marker_id : ℤ) (timeout turn_speed : ℚ) (name : String)
  | ConditionalAction (marker_id : ℤ) (if_visible if_not_visible : RActionList)
      (name : String)
  | LoopAction (actions : RActionList) (count : ℤ) (name : String)
/-- A list of actions (the `actions` / branch lists of a routine). -/
inductive RActionList where
  | nil
  | cons (a : RAction) (rest : RActionList)
end

/-- Append on embedded action lists. -/
def RActionList.append : RActionList → RActionList → RActionList
  | .nil, ys => ys
  | .cons a rest, ys => .cons a (RActionList.append rest ys)

mutual
/-- `ActionFactory.action_to_dict`: serialize one action to a dictionary with
`type`, `name` and a per-type `params` dictionary. -/
def action_to_dict : RAction → DVal
  | .MoveAction l r d n =>
    .dict (.cons "type" (.str "MoveAction") (.cons "name" (.str n)
      (.cons "params" (.dict (.cons "left_speed" (.num l)
        (.cons "right_speed" (.num r) (.cons "duration" (.num d) .nil)))) .nil)))
  | .TurnAction a s n =>
    .dict (.cons "type" (.str "TurnAction") (.cons "name" (.str n)
      (.cons "params" (.dict (.cons "angle_degrees" (.num a)
        (.cons "speed" (.num s) .nil))) .nil)))
  | .ActuatorAction act d s n =>
    .dict (.cons "type" (.str "ActuatorAction") (.cons "name" (.str n)
      (.cons "params" (.dict (.cons "action" (.str act)
        (.cons "duration" (.num d) (.cons "speed" (.num s) .nil)))) .nil)))
  | .WaitAction d n =>
    .dict (.cons "type" (.str "WaitAction") (.cons "name" (.str n)
      (.cons "params" (.dict (.cons "duration" (.num d) .nil)) .nil)))
  | .NavigateToMarkerAction g n =>
    .dict (.cons "type" (.str "NavigateToMarkerAction") (.cons "name" (.str n)
      (.cons "params" (.dict (.cons "goal" g.to_dict .nil)) .nil)))
  | .SearchForMarkerAction m t ts n =>
    .dict (.cons "type" (.str "SearchForMarkerAction") (.cons "name" (.str n)
      (.cons "params" (.dict (.cons "marker_id" (.int m)
        (.cons "timeout" (.num t) (.cons "turn_speed" (.num ts) .nil)))) .nil)))
  | .ConditionalAction m iv inv n =>
    .dict (.cons "type" (.str "ConditionalAction") (.cons "name" (.str n)
      (.cons "params" (.dict (.cons "marker_id" (.int m)
        (.cons "if_visible" (.list (actions_to_dicts iv))
        (.cons "if_not_visible" (.list (actions_to_dicts inv)) .nil)))) .nil)))
  | .LoopAction acts c n =>
    .dict (.cons "type" (.str "LoopAction") (.cons "name" (.str n)
      (.cons "params" (.dict (.cons "actions" (.list (actions_to_dicts acts))
        (.cons "count" (.int c) .nil))) .nil)))
/-- Serialize each action of a list (`[action_to_dict(a) for a in actions]`). -/
def actions_to_dicts : RActionList → DList
  | .nil => .nil
  | .cons a rest => .cons (action_to_dict a) (actions_to_dicts rest)
end

mutual
/-- `ActionFactory.create_action`: rebuild one action from a dictionary.
The Python recursion is plain; here a fuel argument bounds the recursion
depth and every recursive call decreases it, so any fuel at least the
serialized tree's size gives the Python behavior. -/
def create_action : ℕ → DVal → Option RAction
  | 0, _ => none
  | fuel + 1, d => do
    let fs ← d.asDict
    let ty ← (fs.get "type").bind DVal.asStr
    let name ← match fs.get "name" with
      | none => some ""
      | some v => v.asStr
    let params ← match fs.get "params" with
      | none => some DFields.nil
      | some v => v.asDict
    match ty with
    | "MoveAction" => do
      let l ← (params.get "left_speed").bind DVal.asNum
      let r ← (params.get "right_speed").bind DVal.asNum
      let dur ← (params.get "duration").bind DVal.asNum
      some (.MoveAction l r dur name)
    | "TurnAction" => do
      let a ← (params.get "angle_degrees").bind DVal.asNum
      let s ← params.getNumD "speed" 30
      some (.TurnAction a s name)
    | "ActuatorAction" => do
      let act ← (params.get "action").bind DVal.asStr
      let dur ← params.getNumD "duration" 0
      let s ← params.getNumD "speed" 50
      some (.ActuatorAction act dur s name)
    | "WaitAction" => do
      let dur ← (params.get "duration").bind DVal.asNum
      some (.WaitAction dur name)
    | "NavigateToMarkerAction" => do
      let gd ← params.get "goal"
      let g ← MarkerGoal.from_dict gd
      some (.NavigateToMarkerAction g name)
    | "SearchForMarkerAction" => do
      let m ← (params.get "marker_id").bind DVal.asInt
      let t ← params.getNumD "timeout" 10
      let ts ← params.getNumD "turn_speed" 20
      some (.SearchForMarkerAction m t ts name)
    | "ConditionalAction" => do
      let m ← (params.get "marker_id").bind DVal.asInt
      let iv ← match params.get "if_visible" with
        | none => some RActionList.nil
        | some v => do create_actions fuel (← v.asList)
      let inv ← match params.get "if_not_visible" with
        | none => some RActionList.nil
        | some v => do create_actions fuel (← v.asList)
      some (.ConditionalAction m iv inv name)
    | "LoopAction" => do
      let acts ← match params.get "actions" with
        | none => some RActionList.nil
        | some v => do create_actions fuel (← v.asList)
      let c ← params.getIntD "count" 1
      some (.LoopAction acts c name)
    | _ => none
/-- Rebuild each action of a serialized list
(`[create_action(a) for a in ...]`). -/
def create_actions : ℕ → DList → Option RActionList
  | 0, _ => none
  | _fuel + 1, .nil => some .nil
  | fuel + 1, .cons v rest => do
    let a ← create_action fuel v
    let as ← create_actions fuel rest
    some (.cons a as)
end

mutual
/-- Structural size of an action (number of tree nodes). -/
def sizeA : RAction → ℕ
  | .ConditionalAction _ iv inv _ => 1 + sizeL iv + sizeL inv
  | .LoopAction acts _ _ => 1 + sizeL acts
  | _ => 1
/-- Structural size of an action list. -/
def sizeL : RActionList → ℕ
  | .nil => 1
  | .cons a rest => 1 + sizeA a + sizeL rest
end

theorem sizeA_pos (a : RAction) : 1 ≤ sizeA a := by
  cases a <;> (simp [sizeA]; try omega)

theorem sizeL_pos (l : RActionList) : 1 ≤ sizeL l := by
  cases l <;> (simp [sizeL]; try omega)

/-- Joint round-trip statement for actions and action lists, by strong
induction on the available fuel. -/
theorem create_roundtrip (f : ℕ) :
    (∀ a : RAction, sizeA a ≤ f →
      create_action f (action_to_dict a) = some a) ∧
    (∀ l : RActionList, sizeL l ≤ f →
      create_actions f (actions_to_dicts l) = some l) := by
  induction f using Nat.strong_induction_on with
  | _ f ih =>
    constructor
    · intro a ha
      match f with
      | 0 => exact absurd (le_trans (sizeA_pos a) ha) (by simp)
      | f + 1 =>
        cases a with
        | MoveAction l r d n => rfl
        | TurnAction ang s n => rfl
        | ActuatorAction act d s n => rfl
        | WaitAction d n => rfl
        | NavigateToMarkerAction g n =>
          have h : create_action (f + 1)
              (action_to_dict (.NavigateToMarkerAction g n)) =
              (MarkerGoal.from_dict g.to_dict).bind
                (fun g2 => some (.NavigateToMarkerAction g2 n)) := rfl
          rw [h, markerGoal_from_to_dict]
          rfl
        | SearchForMarkerAction m t ts n => rfl
        | ConditionalAction m iv inv n =>
          have h : create_action (f + 1)
              (action_to_dict (.ConditionalAction m iv inv n)) =
              (create_actions f (actions_to_dicts iv)).bind (fun iv2 =>
                (create_actions f (actions_to_dicts inv)).bind (fun inv2 =>
                  some (.ConditionalAction m iv2 inv2 n))) := rfl
          have hsz : sizeL iv ≤ f ∧ sizeL inv ≤ f := by
            simp [sizeA] at ha
            omega
          rw [h, (ih f (by omega)).2 iv hsz.1, (ih f (by omega)).2 inv hsz.2]
          rfl
        | LoopAction acts c n =>
          have h : create_action (f + 1)
              (action_to_dict (.LoopAction acts c n)) =
              (create_actions f (actions_to_dicts acts)).bind (fun as2 =>
                some (.LoopAction as2 c n)) := rfl
          have hsz : sizeL acts ≤ f := by
            simp [sizeA] at ha
            omega
          rw [h, (ih f (by omega)).2 acts hsz]
          rfl
    · intro l hl
      match f with
      | 0 => exact absurd (le_trans (sizeL_pos l) hl) (by simp)
      | f + 1 =>
        cases l with
        | nil => rfl
        | cons a rest =>
          have h : create_actions (f + 1)
              (actions_to_dicts (.cons a rest)) =
              (create_action f (action_to_dict a)).bind (fun a2 =>
                (create_actions f (actions_to_dicts rest)).bind (fun r2 =>
                  some (.cons a2 r2))) := rfl
          have hsz : sizeA a ≤ f ∧ sizeL rest ≤ f := by
            simp [sizeL] at hl
            omega
          rw [h, (ih f (by omega)).1 a hsz.1, (ih f (by omega)).2 rest hsz.2]
          rfl

/-! ### Routines and their save/load round trip

`RoutineManager.save_routine` serializes a routine's name, description, action
list and one level of subroutines (each subroutine's own subroutines are not
written); `RoutineManager.load_routine` rebuilds the routine through
`ActionFactory.create_action`. -/

mutual
/-- Embedding of class `Routine`: name, description, action list and named
subroutines (the runtime fields `interrupted`/`current_action_index` are
execution state, not part of the serialized value). -/
inductive RoutineT where
  | mk (name description : String) (actions : RActionList) (subs : SubList)
/-- The `subroutines` mapping, in insertion order. -/
inductive SubList where
  | nil
  | cons (key : String) (r : RoutineT) (rest : SubList)
end

/-- Action list of a routine. -/
def RoutineT.actions : RoutineT → RActionList
  | .mk _ _ acts _ => acts

/-- Name of a routine. -/
def RoutineT.name : RoutineT → String
  | .mk n _ _ _ => n

/-- Description of a routine. -/
def RoutineT.description : RoutineT → String
  | .mk _ d _ _ => d

/-- Serialization of the `subroutines` dict by `RoutineManager.save_routine`:
each entry keeps only name, description and actions. -/
def subs_to_dict : SubList → DFields
  | .nil => .nil
  | .cons key (.mk n d acts _) rest =>
    .cons key (.dict (.cons "name" (.str n) (.cons "description" (.str d)
      (.cons "actions" (.list (actions_to_dicts acts)) .nil))))
      (subs_to_dict rest)

/-- `RoutineManager.save_routine` (file writing elided): the dictionary dumped
to JSON. -/
def save_routine (r : RoutineT) : DVal :=
  match r with
  | .mk n d acts subs =>
    .dict (.cons "name" (.str n) (.cons "description" (.str d)
      (.cons "actions" (.list (actions_to_dicts acts))
      (.cons "subroutines" (.dict (subs_to_dict subs)) .nil))))

/-- Rebuild the subroutine entries of `RoutineManager.load_routine`; each
subroutine is rebuilt with actions only (fuel as in `create_action`). -/
def load_subs (fuel : ℕ) : DFields → Option SubList
  | .nil => some .nil
  | .cons _key v rest => do
    let fs ← v.asDict
    let n ← (fs.get "name").bind DVal.asStr
    let d ← match fs.get "description" with
      | none => some ""
      | some dv => dv.asStr
    let acts ← match fs.get "actions" with
      | none => some RActionList.nil
      | some av => do create_actions fuel (← av.asList)
    let tail ← load_subs fuel rest
    some (.cons n (.mk n d acts .nil) tail)

/-- `RoutineManager.load_routine` (file reading elided): rebuild a routine
from its saved dictionary. -/
def load_routine (fuel : ℕ) (d : DVal) : Option RoutineT := do
  let fs ← d.asDict
  let n ← (fs.get "name").bind DVal.asStr
  let desc ← match fs.get "description" with
    | none => some ""
    | some dv => dv.asStr
  let acts ← match fs.get "actions" with
    | none => some RActionList.nil
    | some av => do create_actions fuel (← av.asList)
  let subs ← match fs.get "subroutines" with
    | none => some SubList.nil
    | some sv => do load_subs fuel (← sv.asDict)
  some (.mk n desc acts subs)

mutual
/-- Whether an action tree contains a `ConditionalAction` nested (directly or
transitively) inside a `LoopAction`. -/
def hasCondInLoopA : RAction → Bool
  | .LoopAction acts _ _ => hasCondL acts || hasCondInLoopL acts
  | .ConditionalAction _ iv inv _ => hasCondInLoopL iv || hasCondInLoopL inv
  | _ => false
/-- `hasCondInLoopA` over a list. -/
def hasCondInLoopL : RActionList → Bool
  | .nil => false
  | .cons a rest => hasCondInLoopA a || hasCondInLoopL rest
/-- Whether an action tree contains a `ConditionalAction` anywhere. -/
def hasCondA : RAction → Bool
  | .ConditionalAction _ _ _ _ => true
  | .LoopAction acts _ _ => hasCondL acts
  | _ => false
/-- `hasCondA` over a list. -/
def hasCondL : RActionList → Bool
  | .nil => false
  | .cons a rest => hasCondA a || hasCondL rest
end

mutual
/-- Structural size of a routine. -/
def sizeR : RoutineT → ℕ
  | .mk _ _ acts subs => 1 + sizeL acts + sizeS subs
/-- Structural size of a subroutine list. -/
def sizeS : SubList → ℕ
  | .nil => 1
  | .cons _ r rest => 1 + sizeR r + sizeS rest
end

theorem load_subs_roundtrip (f : ℕ) :
    ∀ (n : ℕ) (subs : SubList), sizeS subs ≤ n → sizeS subs ≤ f →
      ∃ s2, load_subs f (subs_to_dict subs) = some s2 := by
  intro n
  induction n with
  | zero =>
    intro subs h0 _
    have h1 : 1 ≤ sizeS subs := by cases subs <;> (simp [sizeS]; try omega)
    omega
  | succ n ih =>
    intro subs hn hsz
    match subs with
    | .nil => exact ⟨.nil, rfl⟩
    | .cons key (.mk nm d acts isubs) rest => ?_
    have h : load_subs f (subs_to_dict (.cons key (.mk nm d acts isubs) rest)) =
        (create_actions f (actions_to_dicts acts)).bind (fun acts2 =>
          (load_subs f (subs_to_dict rest)).bind (fun tail =>
            some (.cons nm (.mk nm d acts2 .nil) tail))) := rfl
    have hacts : sizeL acts ≤ f := by
      simp [sizeS, sizeR] at hsz
      omega
    have hrest : sizeS rest ≤ f := by
      simp [sizeS] at hsz
      omega
    have hrestn : sizeS rest ≤ n := by
      simp [sizeS] at hn
      omega
    obtain ⟨tail, htail⟩ := ih rest hrestn hrest
    exact ⟨_, by rw [h, (create_roundtrip f).2 acts hacts, htail]; rfl⟩

/-- C1. Serializing a `Routine` whose action tree contains a
`ConditionalAction` nested inside a `LoopAction` (via
`RoutineManager.save_routine` / `ActionFactory.action_to_dict`) and
deserializing it (via `RoutineManager.load_routine` /
`ActionFactory.create_action`) yields a routine whose action tree is
structurally equal to the original, with the same name and description. -/
theorem routine_serialization_roundtrip (r : RoutineT) (f : ℕ)
    (hf : sizeR r ≤ f) (_hshape : hasCondInLoopL r.actions = true) :
    ∃ r2, load_routine f (save_routine r) = some r2 ∧
      r2.actions = r.actions ∧ r2.name = r.name ∧
      r2.description = r.description := by
  cases r with
  | mk n d acts subs =>
    have h : load_routine f (save_routine (.mk n d acts subs)) =
        (create_actions f (actions_to_dicts acts)).bind (fun acts2 =>
          (load_subs f (subs_to_dict subs)).bind (fun s2 =>
            some (.mk n d acts2 s2))) := rfl
    have hacts : sizeL acts ≤ f := by
      simp [sizeR] at hf
      omega
    have hsubs : sizeS subs ≤ f := by
      simp [sizeR] at hf
      omega
    obtain ⟨s2, hs2⟩ := load_subs_roundtrip f (sizeS subs) subs le_rfl hsubs
    refine ⟨.mk n d acts s2, ?_, rfl, rfl, rfl⟩
    rw [h, (create_roundtrip f).2 acts hacts, hs2]
    rfl

/-- A concrete routine: a three-iteration loop whose body is a conditional. -/
def demoRoutine : RoutineT :=
  .mk "demo" "loop with nested conditional"
    (.cons (.LoopAction
      (.cons (.ConditionalAction 1
        (.cons (.WaitAction 1 "pause") .nil)
        (.cons (.MoveAction 20 20 (1/2) "nudge") .nil) "check marker") .nil)
      3 "main loop") .nil)
    .nil

theorem routine_serialization_roundtrip_witness :
    hasCondInLoopL demoRoutine.actions = true ∧
      ∃ r2, load_routine 100 (save_routine demoRoutine) = some r2 ∧
        r2.actions = demoRoutine.actions ∧ r2.name = demoRoutine.name ∧
        r2.description = demoRoutine.description :=
  ⟨by decide, routine_serialization_roundtrip demoRoutine 100 (by decide)
    (by decide)⟩

/-! ### Routine execution

Embedding of the interpreter of `routine_system.py`. The actuation port
(`context.robot`) is the state `PortState`; the environment supplies, per
logical tick, the interrupt flag, the set of visible markers and the outcome
of a delegated navigation; blocking polling loops are condensed to one oracle
consultation (the claims proved below do not depend on the poll count). Every
atomic motor path of `aruco_navigation.py` /`routine_navigator.py` reachable
from `NavigateToMarkerAction` stops the motors before returning, which the
`navigate` case reflects. The returned log lists every action whose `execute`
was entered, in order. -/

/-- The command currently applied to the linear actuator. -/
inductive ActCmd where
  | stopped
  | extending (speed : ℚ)
  | retracting (speed : ℚ)
deriving DecidableEq, Repr

/-- The actuation port: current motor speeds and actuator command. -/
structure PortState where
  left : ℚ
  right : ℚ
  act : ActCmd
deriving DecidableEq, Repr

/-- Result of executing an action (`ActionResult`; the auxiliary `data` and
`duration` fields carry no control flow and are omitted). -/
structure ActionResult where
  success : Bool
  message : String
deriving DecidableEq, Repr

/-- The oracles consulted during execution: the interrupt flag, marker
visibility and the outcome of a delegated marker navigation, per tick. -/
structure ExecEnv where
  intr : ℕ → Bool
  vis : ℕ → ℤ → Bool
  navOk : ℕ → Bool

/-- Set both motor speeds (`robot.set_motor_speeds`). -/
def setMotors (s : PortState) (l r : ℚ) : PortState := ⟨l, r, s.act⟩

/-- Stop both motors (`robot.stop_motors`). -/
def stopMotors (s : PortState) : PortState := setMotors s 0 0

/-- The outcome of one interpreter step: result, port state, next tick and
the log of entered actions. -/
def ExecOut := ActionResult × PortState × ℕ × List RAction

mutual
/-- One action's `execute(context)`; `none` means the fuel bound was reached
(only unbounded loops consume unbounded fuel). -/
def exec_action (fuel : ℕ) (act : RAction) (env : ExecEnv) (s : PortState)
    (t : ℕ) : Option ExecOut :=
  match fuel, act, env, s, t with
  | 0, _, _, _, _ => none
  | _f + 1, .MoveAction l r d n, env, s, t =>
    let s1 := setMotors s l r
    if env.intr t then
      some (⟨false, "Movement interrupted"⟩, stopMotors s1, t + 1,
        [.MoveAction l r d n])
    else
      some (⟨true, "Moved"⟩, stopMotors s1, t + 1, [.MoveAction l r d n])
  | _f + 1, .TurnAction ang speed n, env, s, t =>
    let s1 := if ang > 0 then setMotors s speed (-speed)
      else setMotors s (-speed) speed
    if env.intr t then
      some (⟨false, "Turn interrupted"⟩, stopMotors s1, t + 1,
        [.TurnAction ang speed n])
    else
      some (⟨true, "Turned"⟩, stopMotors s1, t + 1, [.TurnAction ang speed n])
  | _f + 1, .ActuatorAction op dur speed n, env, s, t =>
    if op = "extend" then
      if dur > 0 then
        if env.intr t then
          some (⟨false, "Actuator action interrupted"⟩,
            ⟨s.left, s.right, .stopped⟩, t + 1,
            [.ActuatorAction op dur speed n])
        else
          some (⟨true, "Actuator complete"⟩,
            ⟨s.left, s.right, .stopped⟩, t + 1,
            [.ActuatorAction op dur speed n])
      else
        some (⟨true, "Actuator complete"⟩,
          ⟨s.left, s.right, .extending speed⟩, t,
          [.ActuatorAction op dur speed n])
    else if op = "retract" then
      if dur > 0 then
        if env.intr t then
          some (⟨false, "Actuator action interrupted"⟩,
            ⟨s.left, s.right, .stopped⟩, t + 1,
            [.ActuatorAction op dur speed n])
        else
          some (⟨true, "Actuator complete"⟩,
            ⟨s.left, s.right, .stopped⟩, t + 1,
            [.ActuatorAction op dur speed n])
      else
        some (⟨true, "Actuator complete"⟩,
          ⟨s.left, s.right, .retracting speed⟩, t,
          [.ActuatorAction op dur speed n])
    else
      some (⟨true, "Actuator stopped"⟩, ⟨s.left, s.right, .stopped⟩, t,
        [.ActuatorAction op dur speed n])
  | _f + 1, .WaitAction dur n, env, s, t =>
    if env.intr t then
      some (⟨false, "Wait interrupted"⟩, s, t + 1, [.WaitAction dur n])
    else
      some (⟨true, "Waited"⟩, s, t + 1, [.WaitAction dur n])
  | _f + 1, .NavigateToMarkerAction g n, env, s, t =>
    if env.navOk t then
      some (⟨true, "Reached marker"⟩, stopMotors s, t + 1,
        [.NavigateToMarkerAction g n])
    else
      some (⟨false, "Failed to reach marker"⟩, stopMotors s, t + 1,
        [.NavigateToMarkerAction g n])
  | _f + 1, .SearchForMarkerAction m tmo ts n, env, s, t =>
    let s1 := setMotors s (-ts) ts
    if env.intr t then
      some (⟨false, "Search interrupted"⟩, stopMotors s1, t + 1,
        [.SearchForMarkerAction m tmo ts n])
    else if env.vis (t + 1) m then
      some (⟨true, "Found marker"⟩, stopMotors s1, t + 2,
        [.SearchForMarkerAction m tmo ts n])
    else
      some (⟨false, "Marker not found"⟩, stopMotors s1, t + 2,
        [.SearchForMarkerAction m tmo ts n])
  | f + 1, .ConditionalAction m iv inv n, env, s, t =>
    match exec_list f "Conditional interrupted"
        (if env.vis t m then iv else inv) env s (t + 1) with
    | none => none
    | some (r, s2, t2, lg) =>
      if r.success then
        some (⟨true, "Conditional complete"⟩, s2, t2,
          RAction.ConditionalAction m iv inv n :: lg)
      else
        some (r, s2, t2, RAction.ConditionalAction m iv inv n :: lg)
  | f + 1, .LoopAction acts c n, env, s, t =>
    match exec_loop f acts c 0 env s t with
    | none => none
    | some (r, s2, t2, lg) =>
      some (r, s2, t2, RAction.LoopAction acts c n :: lg)
/-- Execute a list of actions in order, checking the interrupt flag before
each one (the inline loops of `Routine.execute`, `ConditionalAction.execute`
and `LoopAction.execute`, whose interrupted-result message is `msg`). -/
def exec_list (fuel : ℕ) (msg0 : String) (l : RActionList) (env : ExecEnv)
    (s : PortState) (t : ℕ) : Option ExecOut :=
  match fuel, msg0, l, env, s, t with
  | 0, _, _, _, _, _ => none
  | _f + 1, _msg, .nil, _env, s, t => some (⟨true, ""⟩, s, t, [])
  | f + 1, msg, .cons a rest, env, s, t =>
    if env.intr t then
      some (⟨false, msg⟩, s, t + 1, [])
    else
      match exec_action f a env s (t + 1) with
      | none => none
      | some (r, s2, t2, lg) =>
        if r.success then
          match exec_list f msg rest env s2 t2 with
          | none => none
          | some (r3, s3, t3, lg3) => some (r3, s3, t3, lg ++ lg3)
        else
          some (r, s2, t2, lg)
termination_by structural fuel
/-- The iteration loop of `LoopAction.execute` (`count = -1` is unbounded). -/
def exec_loop (fuel : ℕ) (acts0 : RActionList) (c : ℤ) (iter : ℕ)
    (env : ExecEnv) (s : PortState) (t : ℕ) : Option ExecOut :=
  match fuel, acts0, c, iter, env, s, t with
  | 0, _, _, _, _, _, _ => none
  | f + 1, acts, c, iter, env, s, t =>
    if c = -1 ∨ (iter : ℤ) < c then
      if env.intr t then
        some (⟨false, "Loop interrupted"⟩, s, t + 1, [])
      else
        match exec_list f "Loop interrupted" acts env s (t + 1) with
        | none => none
        | some (r, s2, t2, lg) =>
          if r.success then
            match exec_loop f acts c (iter + 1) env s2 t2 with
            | none => none
            | some (r3, s3, t3, lg3) => some (r3, s3, t3, lg ++ lg3)
          else
            some (r, s2, t2, lg)
    else
      some (⟨true, "Loop completed"⟩, s, t, [])
termination_by structural fuel
end

/-- `Routine.execute`: run the action list with the routine-level interrupt
check; an all-success run reports "Routine completed". -/
def routine_execute (f : ℕ) (r : RoutineT) (env : ExecEnv) (s : PortState)
    (t : ℕ) : Option ExecOut :=
  match exec_list f "Routine interrupted" r.actions env s t with
  | none => none
  | some (res, s2, t2, lg) =>
    if res.success then some (⟨true, "Routine completed"⟩, s2, t2, lg)
    else some (res, s2, t2, lg)

/-- Every action path of the interpreter leaves the motors at zero whenever it
started with the motors at zero: `Move`/`Turn`/`Search` stop the motors on all
of their own exits, navigation stops them in `aruco_navigation.py`, and the
remaining actions never start them. -/
theorem exec_motors_zero : ∀ f : ℕ,
    (∀ a env s t out, exec_action f a env s t = some out →
      s.left = 0 → s.right = 0 → out.2.1.left = 0 ∧ out.2.1.right = 0) ∧
    (∀ msg l env s t out, exec_list f msg l env s t = some out →
      s.left = 0 → s.right = 0 → out.2.1.left = 0 ∧ out.2.1.right = 0) ∧
    (∀ acts c iter env s t out, exec_loop f acts c iter env s t = some out →
      s.left = 0 → s.right = 0 → out.2.1.left = 0 ∧ out.2.1.right = 0) := by
  intro f
  induction f using Nat.strong_induction_on with
  | _ f ih =>
    refine ⟨?_, ?_, ?_⟩
    · intro a env s t out h hl hr
      match f with
      | 0 => exact absurd h (by simp [exec_action])
      | f + 1 =>
        cases a with
        | ConditionalAction m iv inv nn =>
          simp only [exec_action] at h
          split at h
          · exact Option.noConfusion h
          · rename_i r1 s1 t1 lg1 heq
            have hz := (ih f (by omega)).2.1 _ _ _ _ _ _ heq hl hr
            split at h <;> (injection h with h2; subst h2; exact hz)
        | LoopAction acts c nn =>
          simp only [exec_action] at h
          split at h
          · exact Option.noConfusion h
          · rename_i r1 s1 t1 lg1 heq
            have hz := (ih f (by omega)).2.2 _ _ _ _ _ _ _ heq hl hr
            injection h with h2
            subst h2
            exact hz
        | _ =>
          simp only [exec_action] at h
          repeat' split at h
          all_goals
            (injection h with h2; subst h2;
             simp_all [stopMotors, setMotors])
    · intro msg l env s t out h hl hr
      match f with
      | 0 => exact absurd h (by simp [exec_list])
      | f + 1 =>
        cases l with
        | nil =>
          simp only [exec_list] at h
          injection h with h2
          subst h2
          exact ⟨hl, hr⟩
        | cons a rest =>
          simp only [exec_list] at h
          split at h
          · injection h with h2
            subst h2
            exact ⟨hl, hr⟩
          · split at h
            · exact Option.noConfusion h
            · rename_i r1 s1 t1 lg1 heq
              have hz := (ih f (by omega)).1 _ _ _ _ _ heq hl hr
              split at h
              · split at h
                · exact Option.noConfusion h
                · rename_i r3 s3 t3 lg3 heq2
                  have hz2 := (ih f (by omega)).2.1 _ _ _ _ _ _ heq2 hz.1 hz.2
                  injection h with h2
                  subst h2
                  exact hz2
              · injection h with h2
                subst h2
                exact hz
    · intro acts c iter env s t out h hl hr
      match f with
      | 0 => exact absurd h (by simp [exec_loop])
      | f + 1 =>
        simp only [exec_loop] at h
        split at h
        · split at h
          · injection h with h2
            subst h2
            exact ⟨hl, hr⟩
          · split at h
            · exact Option.noConfusion h
            · rename_i r1 s1 t1 lg1 heq
              have hz := (ih f (by omega)).2.1 _ _ _ _ _ _ heq hl hr
              split at h
              · split at h
                · exact Option.noConfusion h
                · rename_i r3 s3 t3 lg3 heq2
                  have hz2 := (ih f (by omega)).2.2 _ _ _ _ _ _ _ heq2 hz.1 hz.2
                  injection h with h2
                  subst h2
                  exact hz2
              · injection h with h2
                subst h2
                exact hz
        · injection h with h2
          subst h2
          exact ⟨hl, hr⟩

/-- C2 (amended). When a routine execution that started with the motors
stopped publishes a failure or interrupted result, the motors have been
commanded to zero before that result is published. (The actuator does not
share this guarantee; see the counterexample.) -/
theorem routine_failure_motors_zero (f : ℕ) (r : RoutineT) (env : ExecEnv)
    (s : PortState) (t : ℕ) (out : ExecOut)
    (h : routine_execute f r env s t = some out)
    (hfail : out.1.success = false) (hl : s.left = 0) (hr : s.right = 0) :
    out.2.1.left = 0 ∧ out.2.1.right = 0 := by
  unfold routine_execute at h
  split at h
  · exact Option.noConfusion h
  · rename_i r1 s1 t1 lg1 heq
    have hz := (exec_motors_zero f).2.1 _ _ _ _ _ _ heq hl hr
    split at h <;> (injection h with h2; subst h2; exact hz)

/-- Interrupt schedule that lets the actuator action finish and then
interrupts the wait: the flag reads set from tick 2 on. -/
def cexEnv : ExecEnv := ⟨fun t => decide (2 ≤ t), fun _ _ => false, fun _ => false⟩

/-- A routine that starts the actuator with `duration = 0` (fire and forget)
and then waits. -/
def cexRoutine : RoutineT :=
  .mk "cex" ""
    (.cons (.ActuatorAction "extend" 0 50 "start actuator")
      (.cons (.WaitAction 5 "wait") .nil)) .nil

theorem routine_failure_motors_zero_witness :
    ({left := 0, right := 0, act := ActCmd.stopped} : PortState).left = 0 ∧
      (routine_execute 10 cexRoutine cexEnv ⟨0, 0, .stopped⟩ 0).isSome = true ∧
      ((⟨false, "Wait interrupted"⟩, ⟨0, 0, ActCmd.extending 50⟩, 3,
          [RAction.ActuatorAction "extend" 0 50 "start actuator",
            RAction.WaitAction 5 "wait"]) : ExecOut).2.1.left = 0 ∧
      ((⟨false, "Wait interrupted"⟩, ⟨0, 0, ActCmd.extending 50⟩, 3,
          [RAction.ActuatorAction "extend" 0 50 "start actuator",
            RAction.WaitAction 5 "wait"]) : ExecOut).2.1.right = 0 :=
  ⟨rfl, rfl,
    (routine_failure_motors_zero 10 cexRoutine cexEnv ⟨0, 0, .stopped⟩ 0 _
      rfl rfl rfl rfl).1,
    (routine_failure_motors_zero 10 cexRoutine cexEnv ⟨0, 0, .stopped⟩ 0 _
      rfl rfl rfl rfl).2⟩

/-- C2 (counterexample). The routine `cexRoutine`, interrupted during its
wait, publishes the failure result "Wait interrupted" while the actuator is
still commanded to extend at 50% — the actuation port has not been returned
to a stopped state before the result is published. -/
theorem routine_failure_actuator_running :
    routine_execute 10 cexRoutine cexEnv ⟨0, 0, .stopped⟩ 0 =
      some (⟨false, "Wait interrupted"⟩, ⟨0, 0, .extending 50⟩, 3,
        [.ActuatorAction "extend" 0 50 "start actuator",
          .WaitAction 5 "wait"]) ∧
    ActCmd.extending 50 ≠ ActCmd.stopped :=
  ⟨rfl, by decide⟩

/-- C7. First-failure short-circuit. (a) If running the prefix `xs` of an
action list fails, running `xs.append ys` gives the identical result, state,
tick and log — the failing action's result propagates and no action of `ys`
is executed. (b) A failing loop body terminates the whole `LoopAction` with
that same failure (remaining iterations are not executed). (c) A failing
branch terminates a `ConditionalAction` with that same failure. (d) The
routine's published result is the first failure itself. -/
theorem first_failure_short_circuits :
    (∀ f msg xs ys env s t out,
      exec_list f msg xs env s t = some out → out.1.success = false →
      exec_list f msg (RActionList.append xs ys) env s t = some out) ∧
    (∀ (f : ℕ) (acts : RActionList) (c : ℤ) (iter : ℕ) env s t out,
      (c = -1 ∨ (iter : ℤ) < c) →
      env.intr t = false →
      exec_list f "Loop interrupted" acts env s (t + 1) = some out →
      out.1.success = false →
      exec_loop (f + 1) acts c iter env s t = some out) ∧
    (∀ f m iv inv nm env s t r s2 t2 lg,
      exec_list f "Conditional interrupted" (if env.vis t m then iv else inv)
        env s (t + 1) = some (r, s2, t2, lg) → r.success = false →
      exec_action (f + 1) (.ConditionalAction m iv inv nm) env s t =
        some (r, s2, t2, RAction.ConditionalAction m iv inv nm :: lg)) ∧
    (∀ f nm desc subs xs ys env s t out,
      exec_list f "Routine interrupted" xs env s t = some out →
      out.1.success = false →
      routine_execute f (.mk nm desc (RActionList.append xs ys) subs)
        env s t = some out) := by
  have hlist : ∀ f msg xs ys env s t out,
      exec_list f msg xs env s t = some out → out.1.success = false →
      exec_list f msg (RActionList.append xs ys) env s t = some out := by
    intro f
    induction f with
    | zero =>
      intro msg xs ys env s t out h
      exact absurd h (by simp [exec_list])
    | succ f ihf =>
      intro msg xs ys env s t out h hfail
      cases xs with
      | nil =>
        simp only [exec_list] at h
        injection h with h2
        subst h2
        simp at hfail
      | cons a rest =>
        simp only [exec_list] at h
        simp only [RActionList.append, exec_list]
        split at h
        · rename_i hintr
          simp only [hintr]
          simp only [if_true]
          exact h
        · rename_i hintr
          simp only [hintr]
          simp only [Bool.false_eq_true, if_false]
          split at h
          · exact Option.noConfusion h
          · rename_i r1 s1 t1 lg1 heq
            split at h
            · rename_i hsucc
              simp only [hsucc, if_true]
              split at h
              · exact Option.noConfusion h
              · rename_i r3 s3 t3 lg3 heq2
                injection h with h2
                subst h2
                have hfail3 : (⟨r3, s3, t3, lg3⟩ : ExecOut).1.success = false :=
                  hfail
                rw [ihf msg rest ys env s1 t1 _ heq2 hfail3]
            · rename_i hsucc
              simp only [Bool.not_eq_true] at hsucc
              simp only [hsucc, Bool.false_eq_true, if_false]
              exact h
  refine ⟨hlist, ?_, ?_, ?_⟩
  · intro f acts c iter env s t out hcond hintr h hfail
    obtain ⟨r, s2, t2, lg⟩ := out
    have hf2 : r.success = false := hfail
    simp only [exec_loop]
    rw [if_pos hcond, hintr]
    simp only [Bool.false_eq_true, if_false]
    rw [h]
    simp only [hf2, Bool.false_eq_true, if_false]
  · intro f m iv inv nm env s t r s2 t2 lg h hfail
    simp only [exec_action]
    rw [h]
    simp only [hfail, Bool.false_eq_true, if_false]
  · intro f nm desc subs xs ys env s t out h hfail
    obtain ⟨r, s2, t2, lg⟩ := out
    have hf2 : r.success = false := hfail
    unfold routine_execute
    have h2 := hlist f "Routine interrupted" xs ys env s t _ h hfail
    simp only [RoutineT.actions]
    rw [h2]
    simp only [hf2, Bool.false_eq_true, if_false]

/-- Interrupt flag permanently set: the first action check already fails. -/
def c7env : ExecEnv := ⟨fun _ => true, fun _ _ => false, fun _ => false⟩

/-- A failing prefix for the short-circuit witness. -/
def c7xs : RActionList := .cons (.WaitAction 5 "w") .nil

/-- A suffix that must never run. -/
def c7ys : RActionList := .cons (.MoveAction 30 30 1 "m") .nil

theorem first_failure_short_circuits_witness :
    exec_list 3 "Routine interrupted" (RActionList.append c7xs c7ys) c7env
        ⟨0, 0, .stopped⟩ 0 =
      some (⟨false, "Routine interrupted"⟩, ⟨0, 0, .stopped⟩, 1, []) ∧
    routine_execute 3 (.mk "r" "" (RActionList.append c7xs c7ys) .nil) c7env
        ⟨0, 0, .stopped⟩ 0 =
      some (⟨false, "Routine interrupted"⟩, ⟨0, 0, .stopped⟩, 1, []) :=
  ⟨first_failure_short_circuits.1 3 "Routine interrupted" c7xs c7ys c7env
      ⟨0, 0, .stopped⟩ 0 _ rfl rfl,
    first_failure_short_circuits.2.2.2 3 "r" "" .nil c7xs c7ys c7env
      ⟨0, 0, .stopped⟩ 0 _ rfl rfl⟩

/-! ### Navigation state machine

Embedding of the `navigate_to_marker` loop of `aruco_navigation.py`. A tick's
observation carries whether the target marker is visible, whether the
apparent-size ratio exceeds the coarse-to-fine threshold (0.7), and whether
the precision controller reported alignment; the timeout event models the
`while` deadline expiring, and `submit` models a `navigate_to_marker` call
(which sets the state to `SEARCHING`). -/

/-- The states of the navigation state machine (`NavigationState`). -/
inductive NavigationState where
  | idle
  | searching
  | approaching
  | aligning
  | aligned
  | error
deriving DecidableEq, Repr

/-- One tick's observation, as consumed by the `navigate_to_marker` loop. -/
structure NavObs where
  visible : Bool
  closeEnough : Bool
  aligned : Bool
deriving DecidableEq, Repr

/-- An input to the state machine. -/
inductive NavCmd where
  | submit
  | tick (o : NavObs)
  | timeoutEv
deriving DecidableEq, Repr

/-- One transition of `navigate_to_marker`: searching advances on marker
visibility, approaching falls back to searching on marker loss and advances
once close enough, aligning falls back on marker loss and terminates on the
controller's aligned signal; the deadline sends every active state to the
error state; terminal states absorb. -/
def nav_step : NavigationState → NavCmd → NavigationState
  | _, .submit => .searching
  | .searching, .tick o => if o.visible then .approaching else .searching
  | .approaching, .tick o =>
    if ¬o.visible then .searching
    else if o.closeEnough then .aligning else .approaching
  | .aligning, .tick o =>
    if ¬o.visible then .searching
    else if o.aligned then .aligned else .aligning
  | .idle, .tick _ => .idle
  | .aligned, .tick _ => .aligned
  | .error, .tick _ => .error
  | .searching, .timeoutEv => .error
  | .approaching, .timeoutEv => .error
  | .aligning, .timeoutEv => .error
  | .idle, .timeoutEv => .idle
  | .aligned, .timeoutEv => .aligned
  | .error, .timeoutEv => .error

/-- The run of the state machine on an input stream, from the idle state. -/
def nav_trace (cmds : ℕ → NavCmd) : ℕ → NavigationState
  | 0 => .idle
  | n + 1 => nav_step (nav_trace cmds n) (cmds n)

theorem nav_pred_aligned (s : NavigationState) (c : NavCmd)
    (h : nav_step s c = .aligned) : s = .aligning ∨ s = .aligned := by
  cases s <;> cases c <;> simp [nav_step] at h <;>
    (try split_ifs at h) <;> simp_all

theorem nav_pred_aligning (s : NavigationState) (c : NavCmd)
    (h : nav_step s c = .aligning) : s = .approaching ∨ s = .aligning := by
  cases s <;> cases c <;> simp [nav_step] at h <;>
    (try split_ifs at h) <;> simp_all

theorem nav_pred_approaching (s : NavigationState) (c : NavCmd)
    (h : nav_step s c = .approaching) : s = .searching ∨ s = .approaching := by
  cases s <;> cases c <;> simp [nav_step] at h <;>
    (try split_ifs at h) <;> simp_all

theorem nav_reach_aligning (cmds : ℕ → NavCmd) :
    ∀ m, nav_trace cmds m = .aligning →
      ∃ j, j < m ∧ nav_trace cmds j = .approaching := by
  intro m
  induction m with
  | zero => intro h; exact absurd h (by simp [nav_trace])
  | succ m ih =>
    intro h
    have h2 : nav_step (nav_trace cmds m) (cmds m) = .aligning := h
    rcases nav_pred_aligning _ _ h2 with h1 | h1
    · exact ⟨m, Nat.lt_succ_self m, h1⟩
    · obtain ⟨j, hj, hja⟩ := ih h1
      exact ⟨j, by omega, hja⟩

theorem nav_reach_approaching (cmds : ℕ → NavCmd) :
    ∀ m, nav_trace cmds m = .approaching →
      ∃ j, j < m ∧ nav_trace cmds j = .searching := by
  intro m
  induction m with
  | zero => intro h; exact absurd h (by simp [nav_trace])
  | succ m ih =>
    intro h
    have h2 : nav_step (nav_trace cmds m) (cmds m) = .approaching := h
    rcases nav_pred_approaching _ _ h2 with h1 | h1
    · exact ⟨m, Nat.lt_succ_self m, h1⟩
    · obtain ⟨j, hj, hja⟩ := ih h1
      exact ⟨j, by omega, hja⟩

theorem nav_reach_aligned (cmds : ℕ → NavCmd) :
    ∀ m, nav_trace cmds m = .aligned →
      ∃ j, j < m ∧ nav_trace cmds j = .aligning := by
  intro m
  induction m with
  | zero => intro h; exact absurd h (by simp [nav_trace])
  | succ m ih =>
    intro h
    have h2 : nav_step (nav_trace cmds m) (cmds m) = .aligned := h
    rcases nav_pred_aligned _ _ h2 with h1 | h1
    · exact ⟨m, Nat.lt_succ_self m, h1⟩
    · obtain ⟨j, hj, hja⟩ := ih h1
      exact ⟨j, by omega, hja⟩

/-- C4. A navigation run (from `Idle`) that is in the `Aligned` state passed
through `Searching`, then `Approaching`, then `Aligning`, in that order; and
no input moves the machine from `Idle` directly to `Aligned`. -/
theorem aligned_requires_phase_order (cmds : ℕ → NavCmd) (m : ℕ)
    (h : nav_trace cmds m = .aligned) :
    (∃ i j k, i < j ∧ j < k ∧ k < m ∧
      nav_trace cmds i = .searching ∧
      nav_trace cmds j = .approaching ∧
      nav_trace cmds k = .aligning) ∧
    (∀ c, nav_step .idle c ≠ .aligned) := by
  constructor
  · obtain ⟨k, hk, hka⟩ := nav_reach_aligned cmds m h
    obtain ⟨j, hj, hja⟩ := nav_reach_aligning cmds k hka
    obtain ⟨i, hi, his⟩ := nav_reach_approaching cmds j hja
    exact ⟨i, j, k, hi, hj, hk, his, hja, hka⟩
  · intro c
    cases c <;> simp [nav_step]

/-- A run that reaches `Aligned`: submit, see the marker, get close, align. -/
def c4cmds : ℕ → NavCmd := fun n =>
  if n = 0 then .submit
  else if n = 1 then .tick ⟨true, false, false⟩
  else if n = 2 then .tick ⟨true, true, false⟩
  else .tick ⟨true, true, true⟩

theorem aligned_requires_phase_order_witness :
    (∃ i j k, i < j ∧ j < k ∧ k < 4 ∧
      nav_trace c4cmds i = .searching ∧
      nav_trace c4cmds j = .approaching ∧
      nav_trace c4cmds k = .aligning) ∧
    (∀ c, nav_step .idle c ≠ .aligned) :=
  aligned_requires_phase_order c4cmds 4 (by decide)

/-! ### Precision alignment controller

Embedding of `PrecisionAlignmentController.compute_alignment` from
`aruco_navigation.py`. The controller's mutable accumulators are `PCState`;
the fixed control period 0.05 s is the rational `5/100`. -/

/-- Marker data consumed by the controllers (`MarkerInfo`; the corner array
feeds only the angle-error computation, which enters the aligner embedding as
the per-tick `angle_error` input). -/
structure MarkerInfo where
  id : ℤ
  center_x : ℚ
  center_y : ℚ
  size : ℚ
  distance : ℚ
deriving DecidableEq, Repr

/-- Saved target position for a marker (`MarkerPosition`). -/
structure MarkerPosition where
  marker_id : ℤ
  name : String
  target_x : ℚ
  target_y : ℚ
  target_size : ℚ
  target_distance : ℚ
  tolerance_x : ℚ
  tolerance_y : ℚ
  tolerance_size : ℚ
deriving DecidableEq, Repr

/-- Accumulator state of `PrecisionAlignmentController`. -/
structure PCState where
  x_integral : ℚ
  y_integral : ℚ
  last_x_error : ℚ
  last_y_error : ℚ
deriving DecidableEq, Repr

/-- Snap a sub-threshold nonzero speed to the minimum speed, keeping its
sign (the minimum-speed threshold block shared by both controllers). -/
def snapMin (mn v : ℚ) : ℚ :=
  if |v| < mn ∧ v ≠ 0 then (if v > 0 then mn else -mn) else v

/-- `PrecisionAlignmentController.compute_alignment`: returns
`(left_speed, right_speed, is_aligned)` plus the updated accumulator state.
Gains: `kp_x = 0.08`, `ki_x = 0.005`, `kd_x = 0.02`, `kp_y = 0.05`,
`ki_y = 0.003`, `kd_y = 0.01`; speed limits `max_linear_speed = 20`,
`min_speed = 8`; `dt = 0.05`. -/
def compute_alignment (st : PCState) (current : MarkerInfo)
    (target : MarkerPosition) : ℚ × ℚ × Bool × PCState :=
  if |target.target_x - current.center_x| ≤ target.tolerance_x ∧
      |target.target_y - current.center_y| ≤ target.tolerance_y ∧
      |target.target_size - current.size| ≤ target.tolerance_size then
    (0, 0, true, st)
  else
    let x_error := target.target_x - current.center_x
    let y_error := target.target_y - current.center_y
    let size_error := target.target_size - current.size
    let x_integral := npClip (st.x_integral + x_error * (5/100)) (-50) 50
    let y_integral := npClip (st.y_integral + y_error * (5/100)) (-50) 50
    let x_derivative := (x_error - st.last_x_error) / (5/100)
    let y_derivative := (y_error - st.last_y_error) / (5/100)
    let turn_control := (8/100) * x_error + (5/1000) * x_integral +
      (2/100) * x_derivative
    let forward_control := (5/100) * size_error + (3/1000) * y_integral +
      (1/100) * y_derivative
    let left_speed := snapMin 8 (npClip (forward_control - turn_control)
      (-20) 20)
    let right_speed := snapMin 8 (npClip (forward_control + turn_control)
      (-20) 20)
    (left_speed, right_speed, false,
      ⟨x_integral, y_integral, x_error, y_error⟩)

/-! ### Robust aligner

Embedding of `PIDController` and the `align_with_marker` control loop of
`aruco_precision_aligner.py`. Wall-clock `dt` between calls is a per-call
input; each loop iteration's detector/geometry stage is summarized by the
per-tick `AlignErrors` record that `calculate_alignment_error` produces. -/

/-- Accumulator state of one `PIDController` (the wall-clock `last_time`
enters through the per-call `dt`). -/
structure PIDState where
  integral : ℚ
  last_error : ℚ
deriving DecidableEq, Repr

/-- `PIDController.update`: proportional, clamped integral and derivative
terms, output clamped to `(lo, hi)`; `dt ≤ 0` is floored to `0.01`. -/
def pid_update (kp ki kd lo hi : ℚ) (st : PIDState) (error dt : ℚ) :
    ℚ × PIDState :=
  let dt := if dt ≤ 0 then 1/100 else dt
  let integral := npClip (st.integral + error * dt) (-50) 50
  let p_term := kp * error
  let i_term := ki * integral
  let d_term := kd * (error - st.last_error) / dt
  let output := npClip (p_term + i_term + d_term) lo hi
  (output, ⟨integral, error⟩)

/-- An alignment target of the robust aligner (`AlignmentTarget`). -/
structure AlignmentTarget where
  marker_id : ℤ
  name : String
  target_x_ratio : ℚ
  target_y_ratio : ℚ
  target_distance_cm : ℚ
  tolerance_x_pixels : ℚ
  tolerance_y_pixels : ℚ
  tolerance_distance_cm : ℚ
  tolerance_angle_deg : ℚ
deriving DecidableEq, Repr

/-- The per-tick error record of `calculate_alignment_error`. -/
structure AlignErrors where
  x_error : ℚ
  y_error : ℚ
  distance_error : ℚ
  angle_error : ℚ
  x_error_ratio : ℚ
  y_error_ratio : ℚ
deriving DecidableEq, Repr

/-- `RobustAligner.is_aligned`: all of the x, distance and angle errors are
within the target's tolerances. -/
def is_aligned (e : AlignErrors) (tgt : AlignmentTarget) : Bool :=
  decide (|e.x_error| ≤ tgt.tolerance_x_pixels ∧
    |e.distance_error| ≤ tgt.tolerance_distance_cm ∧
    |e.angle_error| ≤ tgt.tolerance_angle_deg)

/-- The three PID controllers of `RobustAligner` (x: gains 0.15/0.01/0.05,
limits ±40; distance: 2.0/0.1/0.3, ±50; angle: 1.0/0.05/0.2, ±30). -/
structure RAPids where
  x_controller : PIDState
  distance_controller : PIDState
  angle_controller : PIDState
deriving DecidableEq, Repr

/-- `RobustAligner.calculate_motor_speeds`: coarse mode is plain proportional
control; fine mode runs the x and distance PIDs and adds an angle correction
when the angle error exceeds 5 degrees. -/
def calculate_motor_speeds (pids : RAPids) (e : AlignErrors) (dt : ℚ)
    (coarse : Bool) : (ℚ × ℚ) × RAPids :=
  if coarse then
    let turn_speed := e.x_error_ratio * 40
    let forward_speed := e.distance_error * 2
    ((forward_speed - turn_speed, forward_speed + turn_speed), pids)
  else
    let xo := pid_update (15/100) (1/100) (5/100) (-40) 40
      pids.x_controller e.x_error dt
    let fo := pid_update 2 (1/10) (3/10) (-50) 50
      pids.distance_controller e.distance_error dt
    let l := fo.1 - xo.1
    let r := fo.1 + xo.1
    if |e.angle_error| > 5 then
      let ao := pid_update 1 (1/20) (1/5) (-30) 30
        pids.angle_controller e.angle_error dt
      ((l - ao.1, r + ao.1), ⟨xo.2, fo.2, ao.2⟩)
    else
      ((l, r), ⟨xo.2, fo.2, pids.angle_controller⟩)

/-- `RobustAligner.set_motor_speeds`: clamp to `±max_speed`, then snap
sub-threshold nonzero speeds to `min_speed` (defaults 50 and 8). -/
def set_motor_speeds (max_speed min_speed l r : ℚ) : ℚ × ℚ :=
  (snapMin min_speed (npClip l (-max_speed) max_speed),
    snapMin min_speed (npClip r (-max_speed) max_speed))

/-- `required_aligned_frames` in `align_with_marker`. -/
def required_aligned_frames : ℕ := 10

/-- Loop state of one `align_with_marker` attempt: PID accumulators, whether
the coarse phase is still active, the consecutive-aligned-frame counter, and
the last motor command applied. -/
structure AlignLoopState where
  pids : RAPids
  coarse : Bool
  aligned_count : ℕ
  last_cmd : ℚ × ℚ
deriving DecidableEq, Repr

/-- The non-returning tail of one `align_with_marker` iteration: possible
coarse-to-fine transition (resetting the x and distance PIDs), motor speed
calculation and `set_motor_speeds`, with the given new aligned count. -/
def align_cont (st : AlignLoopState) (e : AlignErrors) (dt : ℚ)
    (count : ℕ) : Bool × AlignLoopState :=
  let trans := st.coarse = true ∧ |e.distance_error| < 10 ∧
    |e.x_error_ratio| < 1/5
  let coarse2 : Bool := if trans then false else st.coarse
  let pids0 : RAPids :=
    if trans then ⟨⟨0, 0⟩, ⟨0, 0⟩, st.pids.angle_controller⟩ else st.pids
  let out := calculate_motor_speeds pids0 e dt coarse2
  let cmd := set_motor_speeds 50 8 out.1.1 out.1.2
  (false, ⟨out.2, coarse2, count, cmd⟩)

/-- One iteration of the `align_with_marker` loop with the marker visible:
an in-tolerance frame bumps the counter and, at `required_aligned_frames`,
stops the motors and reports success; otherwise the counter resets or
advances and the controllers drive the motors. -/
def align_tick (tgt : AlignmentTarget) (st : AlignLoopState)
    (e : AlignErrors) (dt : ℚ) : Bool × AlignLoopState :=
  if is_aligned e tgt then
    if st.aligned_count + 1 ≥ required_aligned_frames then
      (true, ⟨st.pids, st.coarse, st.aligned_count + 1,
        set_motor_speeds 50 8 0 0⟩)
    else
      align_cont st e dt (st.aligned_count + 1)
  else
    align_cont st e dt 0

/-- Run the alignment loop over a list of per-tick errors, returning whether
success was declared, the final loop state and the number of ticks consumed
(the list ending models the attempt timeout). -/
def run_align (tgt : AlignmentTarget) :
    AlignLoopState → List (AlignErrors × ℚ) → Bool × AlignLoopState × ℕ
  | st, [] => (false, st, 0)
  | st, (e, dt) :: rest =>
    match align_tick tgt st e dt with
    | (true, st2) => (true, st2, 1)
    | (false, st2) =>
      let out := run_align tgt st2 rest
      (out.1, out.2.1, out.2.2 + 1)

/-- C10. A `compute_alignment` call whose input errors are all within the
target's tolerances returns exactly `(0, 0, true)` and leaves the
controller's accumulator state unchanged. -/
theorem compute_alignment_in_tolerance (st : PCState) (cur : MarkerInfo)
    (tgt : MarkerPosition)
    (hx : |tgt.target_x - cur.center_x| ≤ tgt.tolerance_x)
    (hy : |tgt.target_y - cur.center_y| ≤ tgt.tolerance_y)
    (hs : |tgt.target_size - cur.size| ≤ tgt.tolerance_size) :
    compute_alignment st cur tgt = (0, 0, true, st) := by
  unfold compute_alignment
  split
  · rfl
  · rename_i hcon
    exact absurd ⟨hx, hy, hs⟩ hcon

/-- A marker observation sitting exactly on the saved target position. -/
def mInfoSample : MarkerInfo := ⟨1, 320, 240, 100, 30⟩

/-- The saved target position matching `mInfoSample`, default tolerances. -/
def mPosSample : MarkerPosition := ⟨1, "pos", 320, 240, 100, 30, 10, 10, 5⟩

theorem compute_alignment_in_tolerance_witness :
    compute_alignment ⟨1, 2, 3, 4⟩ mInfoSample mPosSample =
      (0, 0, true, (⟨1, 2, 3, 4⟩ : PCState)) :=
  compute_alignment_in_tolerance ⟨1, 2, 3, 4⟩ mInfoSample mPosSample
    (by norm_num [mInfoSample, mPosSample])
    (by norm_num [mInfoSample, mPosSample])
    (by norm_num [mInfoSample, mPosSample])

/-- C3 (counterexample). On the `PrecisionAlignmentController` path (used by
`ArUcoNavigator.navigate_to_marker` to declare `ALIGNED`), a single
in-tolerance call of a fresh controller already reports `aligned = true`:
there is no debounce on this path. -/
theorem single_call_reports_aligned :
    compute_alignment ⟨0, 0, 0, 0⟩ mInfoSample mPosSample =
      (0, 0, true, (⟨0, 0, 0, 0⟩ : PCState)) := by
  norm_num [compute_alignment, mInfoSample, mPosSample]

theorem npClip_bounds (v lo hi : ℚ) (h : lo ≤ hi) :
    lo ≤ npClip v lo hi ∧ npClip v lo hi ≤ hi := by
  unfold npClip
  exact ⟨le_min (le_max_right v lo) h, min_le_right _ _⟩

/-- The clamp-then-snap block: output bounded by `mx`, nonzero outputs at
least `mn` in magnitude, and the clamped value's sign is preserved. -/
theorem snap_clip_spec (mx mn v : ℚ) (h0 : 0 ≤ mn) (h1 : mn ≤ mx) :
    |snapMin mn (npClip v (-mx) mx)| ≤ mx ∧
    (snapMin mn (npClip v (-mx) mx) ≠ 0 →
      mn ≤ |snapMin mn (npClip v (-mx) mx)|) ∧
    (0 < npClip v (-mx) mx → 0 < snapMin mn (npClip v (-mx) mx)) ∧
    (npClip v (-mx) mx < 0 → snapMin mn (npClip v (-mx) mx) < 0) := by
  obtain ⟨hlo, hhi⟩ := npClip_bounds v (-mx) mx (by linarith)
  set c := npClip v (-mx) mx with hc
  unfold snapMin
  split_ifs with hcond hpos
  · have hmnpos : 0 < mn := lt_of_le_of_lt (abs_nonneg c) hcond.1
    refine ⟨?_, ?_, ?_, ?_⟩
    · rw [abs_of_nonneg h0]
      exact h1
    · intro _
      rw [abs_of_nonneg h0]
    · intro _
      exact hmnpos
    · intro hneg
      exact absurd hpos (by linarith)
  · have hmnpos : 0 < mn := lt_of_le_of_lt (abs_nonneg c) hcond.1
    refine ⟨?_, ?_, ?_, ?_⟩
    · rw [abs_neg, abs_of_nonneg h0]
      exact h1
    · intro _
      rw [abs_neg, abs_of_nonneg h0]
    · intro hgt
      exact absurd hgt hpos
    · intro _
      linarith
  · refine ⟨abs_le.mpr ⟨hlo, hhi⟩, ?_, fun h => h, fun h => h⟩
    intro hne
    rcases not_and_or.mp hcond with h2 | h2
    · exact le_of_not_lt h2
    · exact absurd (not_not.mp h2) hne

/-- C5. The drive commands emitted by the controllers are bounded:
`RobustAligner.set_motor_speeds` (with any `0 ≤ min_speed ≤ max_speed`, the
defaults being 8 and 50) clamps both outputs to `±max_speed`, snaps
sub-threshold nonzero commands to `min_speed` with the original sign, and
never emits a nonzero command of magnitude below `min_speed`; likewise every
`compute_alignment` output respects its limits `max = 20`, `min = 8`. -/
theorem controller_output_bounded :
    (∀ max_speed min_speed l r : ℚ, 0 ≤ min_speed → min_speed ≤ max_speed →
      |(set_motor_speeds max_speed min_speed l r).1| ≤ max_speed ∧
      |(set_motor_speeds max_speed min_speed l r).2| ≤ max_speed ∧
      ((set_motor_speeds max_speed min_speed l r).1 ≠ 0 →
        min_speed ≤ |(set_motor_speeds max_speed min_speed l r).1|) ∧
      ((set_motor_speeds max_speed min_speed l r).2 ≠ 0 →
        min_speed ≤ |(set_motor_speeds max_speed min_speed l r).2|) ∧
      (0 < npClip l (-max_speed) max_speed →
        0 < (set_motor_speeds max_speed min_speed l r).1) ∧
      (npClip l (-max_speed) max_speed < 0 →
        (set_motor_speeds max_speed min_speed l r).1 < 0)) ∧
    (∀ st cur tgt,
      |(compute_alignment st cur tgt).1| ≤ 20 ∧
      |(compute_alignment st cur tgt).2.1| ≤ 20 ∧
      ((compute_alignment st cur tgt).1 ≠ 0 →
        8 ≤ |(compute_alignment st cur tgt).1|) ∧
      ((compute_alignment st cur tgt).2.1 ≠ 0 →
        8 ≤ |(compute_alignment st cur tgt).2.1|)) := by
  constructor
  · intro mx mn l r h0 h1
    obtain ⟨a1, a2, a3, a4⟩ := snap_clip_spec mx mn l h0 h1
    obtain ⟨b1, b2, _, _⟩ := snap_clip_spec mx mn r h0 h1
    exact ⟨a1, b1, a2, b2, a3, a4⟩
  · intro st cur tgt
    unfold compute_alignment
    split
    · norm_num
    · refine ⟨?_, ?_, ?_, ?_⟩
      · exact (snap_clip_spec 20 8 _ (by norm_num) (by norm_num)).1
      · exact (snap_clip_spec 20 8 _ (by norm_num) (by norm_num)).1
      · exact (snap_clip_spec 20 8 _ (by norm_num) (by norm_num)).2.1
      · exact (snap_clip_spec 20 8 _ (by norm_num) (by norm_num)).2.1

theorem controller_output_bounded_witness :
    |(set_motor_speeds 50 8 3 100).1| ≤ 50 ∧
    ((set_motor_speeds 50 8 3 100).1 ≠ 0 →
      8 ≤ |(set_motor_speeds 50 8 3 100).1|) ∧
    |(compute_alignment ⟨40, -40, 7, -2⟩ mInfoSample
      ⟨1, "p", 100, 240, 160, 30, 10, 10, 5⟩).1| ≤ 20 :=
  ⟨(controller_output_bounded.1 50 8 3 100 (by norm_num) (by norm_num)).1,
    (controller_output_bounded.1 50 8 3 100 (by norm_num) (by norm_num)).2.2.1,
    (controller_output_bounded.2 ⟨40, -40, 7, -2⟩ mInfoSample
      ⟨1, "p", 100, 240, 160, 30, 10, 10, 5⟩).1⟩

theorem align_cont_fst (st : AlignLoopState) (e : AlignErrors) (dt : ℚ)
    (k : ℕ) : (align_cont st e dt k).1 = false := rfl

theorem align_cont_count (st : AlignLoopState) (e : AlignErrors) (dt : ℚ)
    (k : ℕ) : (align_cont st e dt k).2.aligned_count = k := rfl

theorem set_motor_speeds_zero : set_motor_speeds 50 8 0 0 = (0, 0) := by
  norm_num [set_motor_speeds, snapMin, npClip]

/-- A run of the alignment loop on in-tolerance frames only: starting below
the debounce bound, it declares success with the motors commanded to zero. -/
theorem run_align_all_aligned (tgt : AlignmentTarget) :
    ∀ (es : List (AlignErrors × ℚ)) (st : AlignLoopState),
      (∀ p ∈ es, is_aligned p.1 tgt = true) →
      10 ≤ es.length + st.aligned_count →
      st.aligned_count ≤ 9 →
      (run_align tgt st es).1 = true ∧
      (run_align tgt st es).2.1.last_cmd = (0, 0) := by
  intro es
  induction es with
  | nil =>
    intro st _ hlen h9
    simp at hlen
    omega
  | cons p rest ih =>
    intro st hall hlen h9
    obtain ⟨e, dt⟩ := p
    have hal : is_aligned e tgt = true := hall (e, dt) (by simp)
    simp only [run_align]
    unfold align_tick
    rw [hal]
    simp only [if_true]
    by_cases hge : required_aligned_frames ≤ st.aligned_count + 1
    · rw [if_pos hge]
      exact ⟨rfl, set_motor_speeds_zero⟩
    · rw [if_neg hge]
      rcases hac : align_cont st e dt (st.aligned_count + 1) with ⟨b, st2⟩
      have hb : b = false := by
        have := align_cont_fst st e dt (st.aligned_count + 1)
        rw [hac] at this
        exact this
      subst hb
      have hcnt : st2.aligned_count = st.aligned_count + 1 := by
        have := align_cont_count st e dt (st.aligned_count + 1)
        rw [hac] at this
        exact this
      have hrec := ih st2 (fun q hq => hall q (by simp [hq]))
        (by simp at hlen ⊢; omega)
        (by simp [required_aligned_frames] at hge; omega)
      exact hrec

/-- C6 (amended). From every controller state, feeding `x_error = 0` and
`distance_error = 0` on every call — with the angle error (the third
condition of `is_aligned`) also within tolerance — for at least the debounce
count of consecutive ticks yields `aligned = true` with the final motor
command zero. -/
theorem zero_errors_debounce_aligns (tgt : AlignmentTarget)
    (st : AlignLoopState) (es : List (AlignErrors × ℚ))
    (htx : 0 ≤ tgt.tolerance_x_pixels) (htd : 0 ≤ tgt.tolerance_distance_cm)
    (hes : ∀ p ∈ es, p.1.x_error = 0 ∧ p.1.distance_error = 0 ∧
      |p.1.angle_error| ≤ tgt.tolerance_angle_deg)
    (hlen : 10 ≤ es.length) (hcount : st.aligned_count = 0) :
    (run_align tgt st es).1 = true ∧
    (run_align tgt st es).2.1.last_cmd = (0, 0) := by
  apply run_align_all_aligned tgt es st
  · intro p hp
    obtain ⟨h1, h2, h3⟩ := hes p hp
    simp [is_aligned, h1, h2, abs_zero, htx, htd, h3]
  · omega
  · omega

/-- A target with the default tolerances of the aligner. -/
def tgtSample : AlignmentTarget := ⟨1, "t", 1/2, 1/2, 30, 10, 10, 2, 3⟩

/-- All-zero per-tick errors. -/
def zeroErr : AlignErrors := ⟨0, 0, 0, 0, 0, 0⟩

/-- Zero x/distance errors but a 10-degree angle error (tolerance is 3). -/
def angErr : AlignErrors := ⟨0, 0, 0, 10, 0, 0⟩

/-- A fresh alignment attempt: zeroed PIDs, coarse phase, zero count. -/
def stFresh : AlignLoopState := ⟨⟨⟨0, 0⟩, ⟨0, 0⟩, ⟨0, 0⟩⟩, true, 0, (0, 0)⟩

/-- Ten ticks of all-zero errors at the 20 Hz period. -/
def esAllZero : List (AlignErrors × ℚ) := List.replicate 10 (zeroErr, 1/20)

theorem zero_errors_debounce_aligns_witness :
    (run_align tgtSample stFresh esAllZero).1 = true ∧
    (run_align tgtSample stFresh esAllZero).2.1.last_cmd = (0, 0) :=
  zero_errors_debounce_aligns tgtSample stFresh esAllZero
    (by norm_num [tgtSample]) (by norm_num [tgtSample])
    (by decide) (by decide) rfl

/-- C6 (counterexample). Twelve consecutive ticks (more than the debounce
count) with `x_error = 0` and `distance_error = 0` but an out-of-tolerance
angle error never produce `aligned = true`: the claim's two zeroed errors
alone do not suffice on the code's `is_aligned` condition. -/
theorem zero_xy_errors_alone_insufficient :
    angErr.x_error = 0 ∧ angErr.distance_error = 0 ∧
    10 ≤ (List.replicate 12 ((angErr, (1/20 : ℚ)))).length ∧
    (run_align tgtSample stFresh (List.replicate 12 (angErr, 1/20))).1 =
      false := by
  refine ⟨rfl, rfl, by decide, ?_⟩
  decide

theorem align_tick_true (tgt : AlignmentTarget) (st : AlignLoopState)
    (e : AlignErrors) (dt : ℚ) (st2 : AlignLoopState)
    (h : align_tick tgt st e dt = (true, st2)) :
    is_aligned e tgt = true ∧
      required_aligned_frames ≤ st.aligned_count + 1 := by
  unfold align_tick at h
  split_ifs at h with h1 h2
  · exact ⟨h1, h2⟩
  · have := align_cont_fst st e dt (st.aligned_count + 1)
    rw [h] at this
    exact absurd this (by simp)
  · have := align_cont_fst st e dt 0
    rw [h] at this
    exact absurd this (by simp)

theorem align_tick_false (tgt : AlignmentTarget) (st : AlignLoopState)
    (e : AlignErrors) (dt : ℚ) (st2 : AlignLoopState)
    (h : align_tick tgt st e dt = (false, st2)) :
    (is_aligned e tgt = true ∧
      st.aligned_count + 1 < required_aligned_frames ∧
      st2.aligned_count = st.aligned_count + 1) ∨
    (is_aligned e tgt = false ∧ st2.aligned_count = 0) := by
  unfold align_tick at h
  split_ifs at h with h1 h2
  · exact absurd (congrArg Prod.fst h) (by simp)
  · left
    have hcnt := align_cont_count st e dt (st.aligned_count + 1)
    rw [h] at hcnt
    exact ⟨h1, by omega, hcnt⟩
  · right
    have hcnt := align_cont_count st e dt 0
    rw [h] at hcnt
    exact ⟨by simpa using h1, hcnt⟩

/-- Invariant: whenever the loop declares success, either the whole run was
one unbroken in-tolerance streak completing the carried count to 10, or the
final ten consumed ticks were all in tolerance. -/
theorem run_align_success_window (tgt : AlignmentTarget) :
    ∀ (es : List (AlignErrors × ℚ)) (st st2 : AlignLoopState) (n : ℕ),
      st.aligned_count ≤ 9 →
      run_align tgt st es = (true, st2, n) →
      (n + st.aligned_count = 10 ∧
        ∀ i, i < n → ∃ p, es[i]? = some p ∧ is_aligned p.1 tgt = true) ∨
      (∃ n0, n = n0 + 10 ∧
        ∀ i, n0 ≤ i → i < n →
          ∃ p, es[i]? = some p ∧ is_aligned p.1 tgt = true) := by
  intro es
  induction es with
  | nil =>
    intro st st2 n _ h
    simp [run_align] at h
  | cons p rest ih =>
    intro st st2 n h9 h
    obtain ⟨e, dt⟩ := p
    simp only [run_align] at h
    split at h
    · rename_i stm heq
      obtain ⟨hal, hge⟩ := align_tick_true tgt st e dt stm heq
      injection h with hb h2
      injection h2 with hst hn
      left
      constructor
      · simp [required_aligned_frames] at hge
        omega
      · intro i hi
        have hi0 : i = 0 := by omega
        subst hi0
        exact ⟨(e, dt), by simp, hal⟩
    · rename_i stm heq
      rcases hr : run_align tgt stm rest with ⟨b2, st3, nr⟩
      rw [hr] at h
      simp only at h
      injection h with hb h2
      injection h2 with hst hn
      subst hb
      have h9m : stm.aligned_count ≤ 9 := by
        rcases align_tick_false tgt st e dt stm heq with ⟨_, hlt, hcnt⟩ |
            ⟨_, hcnt⟩
        · simp [required_aligned_frames] at hlt
          omega
        · omega
      rcases align_tick_false tgt st e dt stm heq with ⟨hal, hlt, hcnt⟩ |
          ⟨hnal, hcnt⟩
      · rcases ih stm st3 nr h9m hr with ⟨h10, hw⟩ | ⟨n0, hn0, hw⟩
        · left
          constructor
          · omega
          · intro i hi
            match i with
            | 0 => exact ⟨(e, dt), by simp, hal⟩
            | i + 1 =>
              obtain ⟨q, hq1, hq2⟩ := hw i (by omega)
              exact ⟨q, by simpa using hq1, hq2⟩
        · right
          refine ⟨n0 + 1, by omega, ?_⟩
          intro i h1 h2
          match i with
          | 0 => omega
          | i + 1 =>
            obtain ⟨q, hq1, hq2⟩ := hw i (by omega) (by omega)
            exact ⟨q, by simpa using hq1, hq2⟩
      · rcases ih stm st3 nr h9m hr with ⟨h10, hw⟩ | ⟨n0, hn0, hw⟩
        · right
          refine ⟨1, by omega, ?_⟩
          intro i h1 h2
          match i with
          | 0 => omega
          | i + 1 =>
            obtain ⟨q, hq1, hq2⟩ := hw i (by omega)
            exact ⟨q, by simpa using hq1, hq2⟩
        · right
          refine ⟨n0 + 1, by omega, ?_⟩
          intro i h1 h2
          match i with
          | 0 => omega
          | i + 1 =>
            obtain ⟨q, hq1, hq2⟩ := hw i (by omega) (by omega)
            exact ⟨q, by simpa using hq1, hq2⟩

theorem align_tick_count_zero (tgt : AlignmentTarget) (st : AlignLoopState)
    (e : AlignErrors) (dt : ℚ) (hc : st.aligned_count = 0) :
    (align_tick tgt st e dt).1 = false := by
  unfold align_tick
  split_ifs with h1 h2
  · simp [required_aligned_frames, hc] at h2
  · exact align_cont_fst st e dt (st.aligned_count + 1)
  · exact align_cont_fst st e dt 0

/-- C3 (amended). In `RobustAligner.align_with_marker` the aligned signal is
debounced: the required consecutive-frame count is 10, within the claimed
default range 5–10; a successful attempt consumed at least 10 ticks and its
last 10 consumed ticks were all in tolerance; and a single call never
declares success from a fresh attempt. (The `PrecisionAlignmentController`
path has no such debounce; see the counterexample.) -/
theorem aligned_requires_debounce :
    (5 ≤ required_aligned_frames ∧ required_aligned_frames ≤ 10) ∧
    (∀ tgt st st2 es n, st.aligned_count = 0 →
      run_align tgt st es = (true, st2, n) →
      10 ≤ n ∧ ∀ i, n - 10 ≤ i → i < n →
        ∃ p, es[i]? = some p ∧ is_aligned p.1 tgt = true) ∧
    (∀ tgt st e dt, st.aligned_count = 0 →
      (run_align tgt st [(e, dt)]).1 = false) := by
  refine ⟨⟨by norm_num [required_aligned_frames],
    by norm_num [required_aligned_frames]⟩, ?_, ?_⟩
  · intro tgt st st2 es n hc h
    rcases run_align_success_window tgt es st st2 n (by omega) h with
        ⟨h10, hw⟩ | ⟨n0, hn0, hw⟩
    · rw [hc, add_zero] at h10
      exact ⟨by omega, fun i _ h2 => hw i h2⟩
    · exact ⟨by omega, fun i h1 h2 => hw i (by omega) h2⟩
  · intro tgt st e dt hc
    simp only [run_align]
    split
    · rename_i stm heq
      have := align_tick_count_zero tgt st e dt hc
      rw [heq] at this
      exact absurd this (by simp)
    · rename_i stm heq
      simp [run_align]

theorem aligned_requires_debounce_witness :
    (run_align tgtSample stFresh [(zeroErr, 1/20)]).1 = false ∧
    10 ≤ (run_align tgtSample stFresh esAllZero).2.2 := by
  constructor
  · exact aligned_requires_debounce.2.2 tgtSample stFresh zeroErr (1/20) rfl
  · have h1 : (run_align tgtSample stFresh esAllZero).1 = true := by decide
    have h : run_align tgtSample stFresh esAllZero =
        (true, (run_align tgtSample stFresh esAllZero).2.1,
          (run_align tgtSample stFresh esAllZero).2.2) := by
      rw [← h1]
    exact (aligned_requires_debounce.2.1 tgtSample stFresh _ esAllZero _
      rfl h).1

/-! ### Approach goal resolution

Embeddings of `RoutineNavigator._calculate_approach_target`
(`routine_navigator.py`) and
`NavigateToMarkerAction._calculate_target_position` (`routine_system.py`).
The custom branch of the latter uses `np.sin`/`np.cos` of the angle in
degrees; these enter as function parameters `sinD`/`cosD` since the reals are
embedded as rationals. -/

/-- `RoutineNavigator._calculate_approach_target`: distance and base angle
per approach; the source's offset block is a no-op (`pass`). -/
def calculate_approach_target (goal : MarkerGoal) : ℚ × ℚ :=
  let base_angle : ℚ :=
    match goal.approach with
    | .front => 0
    | .back => 180
    | .left => 90
    | .right => -90
    | .custom => goal.angle_degrees
  (goal.distance_cm, base_angle)

/-- The pre-offset placement `(x, y, angle)` computed by the approach branch
of `NavigateToMarkerAction._calculate_target_position`. -/
def base_target_position (sinD cosD : ℚ → ℚ) (g : MarkerGoal) :
    ℚ × ℚ × ℚ :=
  match g.approach with
  | .front => (0, -g.distance_cm, 0)
  | .back => (0, g.distance_cm, 180)
  | .left => (-g.distance_cm, 0, 90)
  | .right => (g.distance_cm, 0, -90)
  | .custom => (g.distance_cm * sinD g.angle_degrees,
      -(g.distance_cm * cosD g.angle_degrees), g.angle_degrees)

/-- `NavigateToMarkerAction._calculate_target_position`: the approach branch
followed by `x += offset_x_cm; y += offset_y_cm`. -/
def calculate_target_position (sinD cosD : ℚ → ℚ) (g : MarkerGoal) :
    ℚ × ℚ × ℚ :=
  ((base_target_position sinD cosD g).1 + g.offset_x_cm,
    (base_target_position sinD cosD g).2.1 + g.offset_y_cm,
    (base_target_position sinD cosD g).2.2)

/-- Modelled from the spec: offsets added post-rotation by the approach
angle, `x += offset_x·cos(a) − offset_y·sin(a)` and
`y += offset_x·sin(a) + offset_y·cos(a)`. -/
def spec_target_position (sinD cosD : ℚ → ℚ) (g : MarkerGoal) :
    ℚ × ℚ × ℚ :=
  let base := base_target_position sinD cosD g
  (base.1 + g.offset_x_cm * cosD base.2.2 - g.offset_y_cm * sinD base.2.2,
    base.2.1 + g.offset_x_cm * sinD base.2.2 + g.offset_y_cm * cosD base.2.2,
    base.2.2)

/-- C8. The approach goal resolver maps `Front`/`Back`/`Left`/`Right`/
`Custom(a)` to target angles `0`/`180`/`90`/`-90`/`a`, keeps the goal's
distance, and is a pure function of the goal alone (equal goals resolve
equally). -/
theorem approach_goal_resolver_spec :
    (∀ g : MarkerGoal, (calculate_approach_target g).1 = g.distance_cm) ∧
    (∀ g : MarkerGoal, g.approach = .front →
      (calculate_approach_target g).2 = 0) ∧
    (∀ g : MarkerGoal, g.approach = .back →
      (calculate_approach_target g).2 = 180) ∧
    (∀ g : MarkerGoal, g.approach = .left →
      (calculate_approach_target g).2 = 90) ∧
    (∀ g : MarkerGoal, g.approach = .right →
      (calculate_approach_target g).2 = -90) ∧
    (∀ g : MarkerGoal, g.approach = .custom →
      (calculate_approach_target g).2 = g.angle_degrees) ∧
    (∀ g1 g2 : MarkerGoal, g1 = g2 →
      calculate_approach_target g1 = calculate_approach_target g2) := by
  refine ⟨fun g => rfl, ?_, ?_, ?_, ?_, ?_, fun g1 g2 h => by rw [h]⟩ <;>
    (intro g h; simp [calculate_approach_target, h])

theorem approach_goal_resolver_spec_witness :
    (calculate_approach_target ⟨1, .front, 30, 0, 5, 5, 30, 0, 0, true⟩).2
        = 0 ∧
    (calculate_approach_target ⟨2, .back, 40, 0, 5, 5, 30, 0, 0, true⟩).2
        = 180 ∧
    (calculate_approach_target ⟨3, .left, 40, 0, 5, 5, 30, 0, 0, true⟩).2
        = 90 ∧
    (calculate_approach_target ⟨4, .right, 40, 0, 5, 5, 30, 0, 0, true⟩).2
        = -90 ∧
    (calculate_approach_target ⟨5, .custom, 40, 37, 5, 5, 30, 0, 0, true⟩).2
        = 37 ∧
    (calculate_approach_target ⟨1, .front, 30, 0, 5, 5, 30, 0, 0, true⟩).1
        = 30 :=
  ⟨approach_goal_resolver_spec.2.1 _ rfl,
    approach_goal_resolver_spec.2.2.1 _ rfl,
    approach_goal_resolver_spec.2.2.2.1 _ rfl,
    approach_goal_resolver_spec.2.2.2.2.1 _ rfl,
    approach_goal_resolver_spec.2.2.2.2.2.1 _ rfl,
    approach_goal_resolver_spec.1 _⟩

/-- Degree-sine table used by the counterexample (only `sin 180 = 0` is
consulted). -/
def sinDegCex : ℚ → ℚ := fun _ => 0

/-- Degree-cosine table used by the counterexample (`cos 180 = -1`). -/
def cosDegCex : ℚ → ℚ := fun a => if a = 180 then -1 else 1

/-- A `Back` approach goal with a 10 cm lateral offset. -/
def goalBackOffset : MarkerGoal := ⟨1, .back, 30, 0, 5, 5, 30, 10, 0, true⟩

/-- C9 (counterexample). For a `Back` approach (angle 180) with
`offset_x_cm = 10`, the code resolves the target x to `+10` (axis-aligned
addition) while the claimed post-rotation formula gives
`10·cos 180° − 0·sin 180° = −10`: the offsets are not rotated. -/
theorem offsets_not_rotated_cex :
    goalBackOffset.offset_x_cm ≠ 0 ∧
    calculate_target_position sinDegCex cosDegCex goalBackOffset =
      (10, 30, 180) ∧
    spec_target_position sinDegCex cosDegCex goalBackOffset =
      (-10, 30, 180) ∧
    calculate_target_position sinDegCex cosDegCex goalBackOffset ≠
      spec_target_position sinDegCex cosDegCex goalBackOffset := by
  have h1 : calculate_target_position sinDegCex cosDegCex goalBackOffset =
      (10, 30, 180) := by
    norm_num [calculate_target_position, base_target_position, goalBackOffset]
  have h2 : spec_target_position sinDegCex cosDegCex goalBackOffset =
      (-10, 30, 180) := by
    norm_num [spec_target_position, base_target_position, goalBackOffset,
      sinDegCex, cosDegCex]
  refine ⟨by norm_num [goalBackOffset], h1, h2, ?_⟩
  rw [h1, h2]
  decide

/-- C9 (amended). The resolved target position adds `offset_x_cm` and
`offset_y_cm` axis-aligned to the pre-offset placement, with no rotation by
the approach angle; and `RoutineNavigator._calculate_approach_target`
ignores the offsets entirely. -/
theorem offsets_applied_axis_aligned :
    (∀ (sinD cosD : ℚ → ℚ) (g : MarkerGoal),
      calculate_target_position sinD cosD g =
        ((base_target_position sinD cosD g).1 + g.offset_x_cm,
          (base_target_position sinD cosD g).2.1 + g.offset_y_cm,
          (base_target_position sinD cosD g).2.2)) ∧
    (∀ g : MarkerGoal, calculate_approach_target g =
      calculate_approach_target
        ⟨g.marker_id, g.approach, g.distance_cm, g.angle_degrees,
          g.tolerance_cm, g.tolerance_degrees, g.timeout, 0, 0,
          g.maintain_orientation⟩) :=
  ⟨fun _ _ _ => rfl, fun _ => rfl⟩
